import Mathlib

/-!
# Verification of the mailbox (`src/my_assistant/utils/message_queue.py`)

Shallow embedding of the `MessageQueue` class. The Python object holds two
deques (`agent_to_cs`, `cs_to_agent`), two `asyncio.Event`s
(`agent_message_ready`, `cs_response_ready`), a `conversation_history` list
and an `active` flag. Deques are embedded as Lean lists (append at the
back = `deque.append`, pop at the front = `deque.popleft`); an
`asyncio.Event` is a `Bool` (`set`/`clear`/`is_set`). The wall-clock
timestamp `datetime.now().isoformat()` is embedded as a logical clock (a
`Nat` counter in the state, incremented at each send): the claims depend
only on creation order, which `datetime.now()` follows.

A coroutine `wait_for_*` is embedded as a function from the pre-state to a
`WaitResult × MQState`: `.msg t` means the call returns the string `t`,
`.timeout` means `asyncio.TimeoutError` is raised to the caller (state
component = state when the exception propagates), and `.blocked` means the
call suspends on the event and — absent any concurrent send — never
resumes. Timeout arguments (Python `Optional[float]`) are embedded as
`Option ℚ`; Python's falsy test `if timeout:` is `truthy`, and
`asyncio.wait_for` with a negative timeout raises `TimeoutError` before
the inner future is ever observed (`immediateTimeout`).
-/

/-- A message record as built in `send_from_agent` / `send_from_cs`:
`{"text": ..., "timestamp": ..., "sender": ...}`. -/
structure Message where
  text : String
  timestamp : Nat
  sender : String
deriving DecidableEq

/-- The mutable state of a `MessageQueue` instance (`__init__`). -/
structure MQState where
  agent_to_cs : List Message
  cs_to_agent : List Message
  agent_message_ready : Bool
  cs_response_ready : Bool
  conversation_history : List Message
  active : Bool
  clock : Nat
deriving DecidableEq

/-- The state produced by `MessageQueue.__init__`: empty queues, cleared
events, empty history, inactive, clock at zero. -/
def MQState.init : MQState :=
  { agent_to_cs := []
    cs_to_agent := []
    agent_message_ready := false
    cs_response_ready := false
    conversation_history := []
    active := false
    clock := 0 }

/-- `MessageQueue.send_from_agent`: build the message record, append it to
`agent_to_cs` and to `conversation_history`, set `agent_message_ready`,
set `active = True`. -/
def send_from_agent (message : String) (s : MQState) : MQState :=
  let message_data : Message :=
    { text := message, timestamp := s.clock, sender := "negotiation_agent" }
  { s with
    agent_to_cs := s.agent_to_cs ++ [message_data]
    conversation_history := s.conversation_history ++ [message_data]
    agent_message_ready := true
    active := true
    clock := s.clock + 1 }

/-- `MessageQueue.send_from_cs`: build the message record, append it to
`cs_to_agent` and to `conversation_history`, set `cs_response_ready`.
Note: unlike `send_from_agent`, it does NOT touch `active`. -/
def send_from_cs (message : String) (s : MQState) : MQState :=
  let message_data : Message :=
    { text := message, timestamp := s.clock, sender := "cs_simulator" }
  { s with
    cs_to_agent := s.cs_to_agent ++ [message_data]
    conversation_history := s.conversation_history ++ [message_data]
    cs_response_ready := true
    clock := s.clock + 1 }

/-- Outcome of a `wait_for_*` call, seen from the caller. -/
inductive WaitResult where
  /-- The call returns this string (a popped message's text, or `""` from
  the `else` branch when the queue is empty after the event fired). -/
  | msg (text : String)
  /-- `asyncio.TimeoutError` is raised to the caller. -/
  | timeout
  /-- The call suspends on the event and, absent a concurrent send, never
  resumes. -/
  | blocked
deriving DecidableEq

/-- Python truthiness of the `timeout` argument: `None` and `0` are falsy
(`if timeout:`), every other float is truthy. -/
def truthy (timeout : Option ℚ) : Bool :=
  match timeout with
  | none => false
  | some q => decide (q ≠ 0)

/-- `asyncio.wait_for(fut, timeout=q)` with `q < 0` raises `TimeoutError`
immediately, before the freshly scheduled inner task can observe the
event. -/
def immediateTimeout (timeout : Option ℚ) : Bool :=
  match timeout with
  | none => false
  | some q => decide (q < 0)

/-- `MessageQueue.wait_for_agent_message`: wait on `agent_message_ready`
(through `asyncio.wait_for` when `timeout` is truthy); once awake, if
`agent_to_cs` is non-empty pop its front, clear the event and return the
text, else return `""`. A wait that starts with the event already set
completes atomically (`Event.wait` returns without yielding); a wait that
starts with the event clear suspends, so absent a concurrent send it
times out (truthy timeout) or stays blocked. -/
def wait_for_agent_message (timeout : Option ℚ) (s : MQState) :
    WaitResult × MQState :=
  if immediateTimeout timeout then
    (.timeout, s)
  else if s.agent_message_ready then
    match s.agent_to_cs with
    | [] => (.msg "", s)
    | message_data :: rest =>
        (.msg message_data.text,
         { s with agent_to_cs := rest, agent_message_ready := false })
  else if truthy timeout then
    (.timeout, s)
  else
    (.blocked, s)

/-- `MessageQueue.wait_for_cs_response`: symmetric to
`wait_for_agent_message` on the `cs_to_agent` queue and
`cs_response_ready` event. -/
def wait_for_cs_response (timeout : Option ℚ) (s : MQState) :
    WaitResult × MQState :=
  if immediateTimeout timeout then
    (.timeout, s)
  else if s.cs_response_ready then
    match s.cs_to_agent with
    | [] => (.msg "", s)
    | response_data :: rest =>
        (.msg response_data.text,
         { s with cs_to_agent := rest, cs_response_ready := false })
  else if truthy timeout then
    (.timeout, s)
  else
    (.blocked, s)

/-- `MessageQueue.get_conversation_history`: returns a copy of the
history list (same value). -/
def get_conversation_history (s : MQState) : List Message :=
  s.conversation_history

/-- `MessageQueue.clear_history`: `self.conversation_history.clear()`. -/
def clear_history (s : MQState) : MQState :=
  { s with conversation_history := [] }

/-- `MessageQueue.is_active`. -/
def is_active (s : MQState) : Bool :=
  s.active

/-- `MessageQueue.end_conversation`: `self.active = False`. -/
def end_conversation (s : MQState) : MQState :=
  { s with active := false }

/-!
## Sequential traces

A trace is a list of calls on one `MessageQueue` instance, executed one
after the other (each call runs to its return, its raise, or its
suspension point). `TState` carries, besides the queue state, the texts
returned so far by completed `wait_for_agent_message` and
`wait_for_cs_response` calls, so that delivery order can be related to
send order.
-/

/-- One call on the `MessageQueue` API (the read-only calls
`get_conversation_history` / `is_active` do not change state and are not
needed in traces). -/
inductive Op where
  | sendAgent (text : String)
  | sendCS (text : String)
  | waitAgent (timeout : Option ℚ)
  | waitCS (timeout : Option ℚ)
  | clearHistory
  | endConversation
deriving DecidableEq

/-- Trace state: the queue plus the texts returned by completed waits, in
completion order, per direction. -/
structure TState where
  mq : MQState
  deliveredAgent : List String
  deliveredCS : List String
deriving DecidableEq

/-- The trace state of a fresh `MessageQueue` with no completed waits. -/
def TState.init : TState :=
  { mq := MQState.init, deliveredAgent := [], deliveredCS := [] }

/-- Texts a wait call delivers: one text when it returns, none when it
raises or suspends. -/
def deliveredOf (r : WaitResult) : List String :=
  match r with
  | .msg t => [t]
  | .timeout => []
  | .blocked => []

/-- Execute one call. -/
def applyOp (op : Op) (ts : TState) : TState :=
  match op with
  | .sendAgent t => { ts with mq := send_from_agent t ts.mq }
  | .sendCS t => { ts with mq := send_from_cs t ts.mq }
  | .waitAgent timeout =>
      let out := wait_for_agent_message timeout ts.mq
      { ts with
        mq := out.2
        deliveredAgent := ts.deliveredAgent ++ deliveredOf out.1 }
  | .waitCS timeout =>
      let out := wait_for_cs_response timeout ts.mq
      { ts with
        mq := out.2
        deliveredCS := ts.deliveredCS ++ deliveredOf out.1 }
  | .clearHistory => { ts with mq := clear_history ts.mq }
  | .endConversation => { ts with mq := end_conversation ts.mq }

/-- Execute a trace, first call first. -/
def runTrace (ops : List Op) (ts : TState) : TState :=
  match ops with
  | [] => ts
  | op :: rest => runTrace rest (applyOp op ts)

/-- The texts sent by the `send_from_agent` calls of a trace, in call
order. -/
def agentSends (ops : List Op) : List String :=
  ops.filterMap fun op =>
    match op with
    | .sendAgent t => some t
    | _ => none

/-- The texts sent by the `send_from_cs` calls of a trace, in call
order. -/
def csSends (ops : List Op) : List String :=
  ops.filterMap fun op =>
    match op with
    | .sendCS t => some t
    | _ => none

/-- `(sender, text)` of each send call of a trace, in call order — the
projection of the message records the sends append to the history. -/
def sendRecords (ops : List Op) : List (String × String) :=
  ops.filterMap fun op =>
    match op with
    | .sendAgent t => some ("negotiation_agent", t)
    | .sendCS t => some ("cs_simulator", t)
    | _ => none

/-- Number of send calls (either direction) in a trace. -/
def sendCount (ops : List Op) : Nat :=
  (sendRecords ops).length

/-- The `(sender, text)` projection of a message record (erases the
timestamp). -/
def Message.record (m : Message) : String × String :=
  (m.sender, m.text)

example :
    (runTrace [.sendAgent "a", .sendCS "b", .sendAgent "c"]
      TState.init).mq.conversation_history.map Message.record =
    [("negotiation_agent", "a"), ("cs_simulator", "b"),
     ("negotiation_agent", "c")] := by decide

example :
    (wait_for_agent_message (some 1) MQState.init).1 = .timeout := by decide

example :
    (wait_for_agent_message (some 0) MQState.init).1 = .blocked := by decide

/-!
## Two concurrent waiters (asyncio interleaving model)

For the race claims, two tasks each run one untimed
`wait_for_agent_message` call on a shared `MessageQueue`, interleaved
with `send_from_agent` calls, under asyncio's cooperative scheduler:

* if the event is already set when a task enters the wait,
  `Event.wait()` returns without yielding, so the whole call (event
  check, queue check, pop-or-`""`) runs atomically (`SEv.start`);
* if the event is clear, the task parks on the event
  (`WStatus.parked`);
* `Event.set()` inside `send_from_agent` marks every parked task
  runnable (`WStatus.woken`) — a later `Event.clear()` does not revoke
  that;
* when the scheduler later resumes a woken task (`SEv.resume`), the task
  re-enters after its `await` and runs the queue check atomically.
-/

/-- Scheduler-visible status of one waiter task. -/
inductive WStatus where
  | idle
  | parked
  | woken
  /-- The wait call returned this string. -/
  | done (res : String)
deriving DecidableEq

/-- Shared queue plus the two waiter tasks. -/
structure Sys where
  mq : MQState
  w1 : WStatus
  w2 : WStatus
deriving DecidableEq

/-- Fresh queue, both waiter tasks not yet started. -/
def Sys.init : Sys :=
  { mq := MQState.init, w1 := .idle, w2 := .idle }

/-- The atomic tail of `wait_for_agent_message` once the task is past
`await`: pop the front and clear the event if the queue is non-empty,
else return `""`. -/
def completePop (s : MQState) : String × MQState :=
  match s.agent_to_cs with
  | [] => ("", s)
  | message_data :: rest =>
      (message_data.text,
       { s with agent_to_cs := rest, agent_message_ready := false })

/-- `Event.set()` as seen by a parked task: it becomes runnable. -/
def wake (w : WStatus) : WStatus :=
  match w with
  | .parked => .woken
  | w => w

/-- A scheduler event: task 1 or 2 enters its wait call, a
`send_from_agent` runs to completion, or the scheduler resumes a woken
task. -/
inductive SEv where
  | start1
  | start2
  | send (text : String)
  | resume1
  | resume2
deriving DecidableEq

/-- One scheduler step (events that do not apply leave the system
unchanged). -/
def stepSys (e : SEv) (y : Sys) : Sys :=
  match e with
  | .start1 =>
      match y.w1 with
      | .idle =>
          if y.mq.agent_message_ready then
            let out := completePop y.mq
            { y with mq := out.2, w1 := .done out.1 }
          else
            { y with w1 := .parked }
      | _ => y
  | .start2 =>
      match y.w2 with
      | .idle =>
          if y.mq.agent_message_ready then
            let out := completePop y.mq
            { y with mq := out.2, w2 := .done out.1 }
          else
            { y with w2 := .parked }
      | _ => y
  | .send t =>
      { mq := send_from_agent t y.mq, w1 := wake y.w1, w2 := wake y.w2 }
  | .resume1 =>
      match y.w1 with
      | .woken =>
          let out := completePop y.mq
          { y with mq := out.2, w1 := .done out.1 }
      | _ => y
  | .resume2 =>
      match y.w2 with
      | .woken =>
          let out := completePop y.mq
          { y with mq := out.2, w2 := .done out.1 }
      | _ => y

/-- Run a schedule, first event first. -/
def runSys (sched : List SEv) (y : Sys) : Sys :=
  match sched with
  | [] => y
  | e :: rest => runSys rest (stepSys e y)

/-- The texts sent by the `send` events of a schedule, in order. -/
def schedSends (sched : List SEv) : List String :=
  sched.filterMap fun e =>
    match e with
    | .send t => some t
    | _ => none

example :
    (runSys [.start1, .start2, .send "ping", .resume1, .resume2]
      Sys.init).w1 = .done "ping" := by decide

example :
    (runSys [.start1, .start2, .send "ping", .resume1, .resume2]
      Sys.init).w2 = .done "" := by decide

/-!
## Helper lemmas
-/

/-- `wait_for_agent_message` never touches the history, the opposite
direction's queue and event, the `active` flag or the clock. -/
theorem wait_for_agent_message_frame (t : Option ℚ) (s : MQState) :
    ((wait_for_agent_message t s).2).conversation_history =
        s.conversation_history ∧
    ((wait_for_agent_message t s).2).cs_to_agent = s.cs_to_agent ∧
    ((wait_for_agent_message t s).2).cs_response_ready =
        s.cs_response_ready ∧
    ((wait_for_agent_message t s).2).active = s.active ∧
    ((wait_for_agent_message t s).2).clock = s.clock := by
  unfold wait_for_agent_message
  split
  · exact ⟨rfl, rfl, rfl, rfl, rfl⟩
  split
  · split
    · exact ⟨rfl, rfl, rfl, rfl, rfl⟩
    · exact ⟨rfl, rfl, rfl, rfl, rfl⟩
  split
  · exact ⟨rfl, rfl, rfl, rfl, rfl⟩
  · exact ⟨rfl, rfl, rfl, rfl, rfl⟩

/-- `wait_for_cs_response` never touches the history, the opposite
direction's queue and event, the `active` flag or the clock. -/
theorem wait_for_cs_response_frame (t : Option ℚ) (s : MQState) :
    ((wait_for_cs_response t s).2).conversation_history =
        s.conversation_history ∧
    ((wait_for_cs_response t s).2).agent_to_cs = s.agent_to_cs ∧
    ((wait_for_cs_response t s).2).agent_message_ready =
        s.agent_message_ready ∧
    ((wait_for_cs_response t s).2).active = s.active ∧
    ((wait_for_cs_response t s).2).clock = s.clock := by
  unfold wait_for_cs_response
  split
  · exact ⟨rfl, rfl, rfl, rfl, rfl⟩
  split
  · split
    · exact ⟨rfl, rfl, rfl, rfl, rfl⟩
    · exact ⟨rfl, rfl, rfl, rfl, rfl⟩
  split
  · exact ⟨rfl, rfl, rfl, rfl, rfl⟩
  · exact ⟨rfl, rfl, rfl, rfl, rfl⟩

/-- A `wait_for_agent_message` call that raises the timeout leaves the
whole state untouched. -/
theorem wait_for_agent_message_timeout_frame (t : Option ℚ) (s : MQState)
    (h : (wait_for_agent_message t s).1 = .timeout) :
    (wait_for_agent_message t s).2 = s := by
  by_cases h1 : immediateTimeout t = true
  · simp [wait_for_agent_message, h1]
  · by_cases h2 : s.agent_message_ready = true
    · exfalso
      rcases hq : s.agent_to_cs with _ | ⟨m, rest⟩ <;>
        simp [wait_for_agent_message, h1, h2, hq] at h
    · by_cases h3 : truthy t = true <;>
        simp [wait_for_agent_message, h1, h2, h3] at h ⊢

/-- A `wait_for_cs_response` call that raises the timeout leaves the
whole state untouched. -/
theorem wait_for_cs_response_timeout_frame (t : Option ℚ) (s : MQState)
    (h : (wait_for_cs_response t s).1 = .timeout) :
    (wait_for_cs_response t s).2 = s := by
  by_cases h1 : immediateTimeout t = true
  · simp [wait_for_cs_response, h1]
  · by_cases h2 : s.cs_response_ready = true
    · exfalso
      rcases hq : s.cs_to_agent with _ | ⟨m, rest⟩ <;>
        simp [wait_for_cs_response, h1, h2, hq] at h
    · by_cases h3 : truthy t = true <;>
        simp [wait_for_cs_response, h1, h2, h3] at h ⊢

/-- A wait on an empty `agent_to_cs` queue never changes the state, no
matter how it ends. -/
theorem wait_for_agent_message_empty_frame (t : Option ℚ) (s : MQState)
    (h : s.agent_to_cs = []) :
    (wait_for_agent_message t s).2 = s := by
  by_cases h1 : immediateTimeout t = true
  · simp [wait_for_agent_message, h1]
  · by_cases h2 : s.agent_message_ready = true
    · simp [wait_for_agent_message, h1, h2, h]
    · by_cases h3 : truthy t = true <;>
        simp [wait_for_agent_message, h1, h2, h3]

/-- A wait on an empty `cs_to_agent` queue never changes the state, no
matter how it ends. -/
theorem wait_for_cs_response_empty_frame (t : Option ℚ) (s : MQState)
    (h : s.cs_to_agent = []) :
    (wait_for_cs_response t s).2 = s := by
  by_cases h1 : immediateTimeout t = true
  · simp [wait_for_cs_response, h1]
  · by_cases h2 : s.cs_response_ready = true
    · simp [wait_for_cs_response, h1, h2, h]
    · by_cases h3 : truthy t = true <;>
        simp [wait_for_cs_response, h1, h2, h3]

/-- Effect of one call on the `(sender, text)` projection of the
history: a send appends its record, every other call except
`clear_history` leaves the history alone. -/
theorem applyOp_history (op : Op) (ts : TState) (h : op ≠ Op.clearHistory) :
    (applyOp op ts).mq.conversation_history.map Message.record =
      ts.mq.conversation_history.map Message.record ++ sendRecords [op] := by
  cases op with
  | sendAgent t => simp [applyOp, send_from_agent, sendRecords, Message.record]
  | sendCS t => simp [applyOp, send_from_cs, sendRecords, Message.record]
  | waitAgent t =>
      simp [applyOp, sendRecords, (wait_for_agent_message_frame t ts.mq).1]
  | waitCS t =>
      simp [applyOp, sendRecords, (wait_for_cs_response_frame t ts.mq).1]
  | clearHistory => exact absurd rfl h
  | endConversation => simp [applyOp, end_conversation, sendRecords]

/-- Splitting `sendRecords` at the head of a trace. -/
theorem sendRecords_cons (op : Op) (rest : List Op) :
    sendRecords (op :: rest) = sendRecords [op] ++ sendRecords rest := by
  cases op <;> simp [sendRecords]

/-- Over a trace with no `clear_history`, the `(sender, text)` projection
of the history grows by exactly the records of the trace's sends, in call
order. -/
theorem runTrace_history_records (ops : List Op) (ts : TState)
    (h : Op.clearHistory ∉ ops) :
    (runTrace ops ts).mq.conversation_history.map Message.record =
      ts.mq.conversation_history.map Message.record ++ sendRecords ops := by
  induction ops generalizing ts with
  | nil => simp [runTrace, sendRecords]
  | cons op rest ih =>
      have hop : op ≠ Op.clearHistory := by
        intro he
        exact h (he ▸ List.mem_cons_self op rest)
      have hrest : Op.clearHistory ∉ rest := fun hm =>
        h (List.mem_cons_of_mem _ hm)
      rw [runTrace, ih _ hrest, applyOp_history op ts hop,
        List.append_assoc, ← sendRecords_cons]

/-- In any single-task (sequential) execution, a set event implies a
non-empty queue for its direction: sends set the event while appending,
and the only path that clears the event is a successful pop. With this,
the `else: return ""` branch of the waits is sequentially dead code. -/
def EventConsistent (s : MQState) : Prop :=
  (s.agent_message_ready = true → s.agent_to_cs ≠ []) ∧
  (s.cs_response_ready = true → s.cs_to_agent ≠ [])

/-- Effect of one call on the delivered/pending/sent bookkeeping: the
texts delivered so far followed by the texts still pending always make up
exactly the texts sent so far, per direction; and event consistency is
preserved. -/
theorem applyOp_fifo (op : Op) (ts : TState) (h : EventConsistent ts.mq) :
    EventConsistent (applyOp op ts).mq ∧
    (applyOp op ts).deliveredAgent ++
        ((applyOp op ts).mq.agent_to_cs.map Message.text) =
      ts.deliveredAgent ++ ts.mq.agent_to_cs.map Message.text ++
        agentSends [op] ∧
    (applyOp op ts).deliveredCS ++
        ((applyOp op ts).mq.cs_to_agent.map Message.text) =
      ts.deliveredCS ++ ts.mq.cs_to_agent.map Message.text ++
        csSends [op] := by
  obtain ⟨hA, hC⟩ := h
  cases op with
  | sendAgent t =>
      refine ⟨⟨fun _ => by simp [applyOp, send_from_agent], fun hc => ?_⟩, ?_, ?_⟩
      · simpa [applyOp, send_from_agent] using hC (by simpa [applyOp, send_from_agent] using hc)
      · simp [applyOp, send_from_agent, agentSends]
      · simp [applyOp, send_from_agent, csSends]
  | sendCS t =>
      refine ⟨⟨fun hc => ?_, fun _ => by simp [applyOp, send_from_cs]⟩, ?_, ?_⟩
      · simpa [applyOp, send_from_cs] using hA (by simpa [applyOp, send_from_cs] using hc)
      · simp [applyOp, send_from_cs, agentSends]
      · simp [applyOp, send_from_cs, csSends]
  | waitAgent t =>
      by_cases h1 : immediateTimeout t = true
      · have hmq : (applyOp (Op.waitAgent t) ts).mq = ts.mq := by
          simp [applyOp, wait_for_agent_message, h1]
        refine ⟨?_, ?_, ?_⟩
        · rw [hmq]; exact ⟨hA, hC⟩
        · simp [applyOp, wait_for_agent_message, h1, deliveredOf, agentSends]
        · simp [applyOp, wait_for_agent_message, h1, deliveredOf, csSends]
      · by_cases h2 : ts.mq.agent_message_ready = true
        · rcases hq : ts.mq.agent_to_cs with _ | ⟨m, rest⟩
          · exact absurd hq (hA h2)
          · refine ⟨⟨fun hc => by simp_all [applyOp, wait_for_agent_message, h1, h2, hq],
              fun hc => ?_⟩, ?_, ?_⟩
            · simpa [applyOp, wait_for_agent_message, h1, h2, hq] using
                hC (by simpa [applyOp, wait_for_agent_message, h1, h2, hq] using hc)
            · simp [applyOp, wait_for_agent_message, h1, h2, hq, deliveredOf, agentSends]
            · simp [applyOp, wait_for_agent_message, h1, h2, hq, deliveredOf, csSends]
        · have hmq : (applyOp (Op.waitAgent t) ts).mq = ts.mq := by
            by_cases h3 : truthy t = true <;>
              simp [applyOp, wait_for_agent_message, h1, h2, h3]
          refine ⟨?_, ?_, ?_⟩
          · rw [hmq]; exact ⟨hA, hC⟩
          · by_cases h3 : truthy t = true <;>
              simp [applyOp, wait_for_agent_message, h1, h2, h3, deliveredOf, agentSends]
          · by_cases h3 : truthy t = true <;>
              simp [applyOp, wait_for_agent_message, h1, h2, h3, deliveredOf, csSends]
  | waitCS t =>
      by_cases h1 : immediateTimeout t = true
      · have hmq : (applyOp (Op.waitCS t) ts).mq = ts.mq := by
          simp [applyOp, wait_for_cs_response, h1]
        refine ⟨?_, ?_, ?_⟩
        · rw [hmq]; exact ⟨hA, hC⟩
        · simp [applyOp, wait_for_cs_response, h1, deliveredOf, agentSends]
        · simp [applyOp, wait_for_cs_response, h1, deliveredOf, csSends]
      · by_cases h2 : ts.mq.cs_response_ready = true
        · rcases hq : ts.mq.cs_to_agent with _ | ⟨m, rest⟩
          · exact absurd hq (hC h2)
          · refine ⟨⟨fun hc => ?_,
              fun hc => by simp_all [applyOp, wait_for_cs_response, h1, h2, hq]⟩, ?_, ?_⟩
            · simpa [applyOp, wait_for_cs_response, h1, h2, hq] using
                hA (by simpa [applyOp, wait_for_cs_response, h1, h2, hq] using hc)
            · simp [applyOp, wait_for_cs_response, h1, h2, hq, deliveredOf, agentSends]
            · simp [applyOp, wait_for_cs_response, h1, h2, hq, deliveredOf, csSends]
        · have hmq : (applyOp (Op.waitCS t) ts).mq = ts.mq := by
            by_cases h3 : truthy t = true <;>
              simp [applyOp, wait_for_cs_response, h1, h2, h3]
          refine ⟨?_, ?_, ?_⟩
          · rw [hmq]; exact ⟨hA, hC⟩
          · by_cases h3 : truthy t = true <;>
              simp [applyOp, wait_for_cs_response, h1, h2, h3, deliveredOf, agentSends]
          · by_cases h3 : truthy t = true <;>
              simp [applyOp, wait_for_cs_response, h1, h2, h3, deliveredOf, csSends]
  | clearHistory =>
      refine ⟨⟨hA, hC⟩, ?_, ?_⟩ <;>
        simp [applyOp, clear_history, agentSends, csSends]
  | endConversation =>
      refine ⟨⟨hA, hC⟩, ?_, ?_⟩ <;>
        simp [applyOp, end_conversation, agentSends, csSends]

/-- Splitting `agentSends` at the head of a trace. -/
theorem agentSends_cons (op : Op) (rest : List Op) :
    agentSends (op :: rest) = agentSends [op] ++ agentSends rest := by
  cases op <;> simp [agentSends]

/-- Splitting `csSends` at the head of a trace. -/
theorem csSends_cons (op : Op) (rest : List Op) :
    csSends (op :: rest) = csSends [op] ++ csSends rest := by
  cases op <;> simp [csSends]

/-- Trace-level FIFO bookkeeping: delivered texts followed by pending
texts equal the previously delivered/pending texts followed by the
trace's sends, per direction. -/
theorem runTrace_fifo (ops : List Op) (ts : TState)
    (h : EventConsistent ts.mq) :
    EventConsistent (runTrace ops ts).mq ∧
    (runTrace ops ts).deliveredAgent ++
        ((runTrace ops ts).mq.agent_to_cs.map Message.text) =
      ts.deliveredAgent ++ ts.mq.agent_to_cs.map Message.text ++
        agentSends ops ∧
    (runTrace ops ts).deliveredCS ++
        ((runTrace ops ts).mq.cs_to_agent.map Message.text) =
      ts.deliveredCS ++ ts.mq.cs_to_agent.map Message.text ++ csSends ops := by
  induction ops generalizing ts with
  | nil => exact ⟨h, by simp [runTrace, agentSends], by simp [runTrace, csSends]⟩
  | cons op rest ih =>
      obtain ⟨h1, h2, h3⟩ := applyOp_fifo op ts h
      obtain ⟨g1, g2, g3⟩ := ih (applyOp op ts) h1
      refine ⟨g1, ?_, ?_⟩
      · rw [runTrace, g2, h2, agentSends_cons op rest, List.append_assoc]
      · rw [runTrace, g3, h3, csSends_cons op rest, List.append_assoc]


/-- How many of the two waiter tasks have finished with result `t`. -/
def doneCount (t : String) (y : Sys) : Nat :=
  (if y.w1 = WStatus.done t then 1 else 0) +
    (if y.w2 = WStatus.done t then 1 else 0)

/-- Race invariant, for schedules all of whose sends carry the text `t`:
every pending message carries `t`; a finished waiter finished with `t` (a
pop) or with `""` (the empty-queue branch); and finished-with-`t` waiters
plus pending messages never exceed the number of sends so far (`n`). -/
def RaceInv (t : String) (n : Nat) (y : Sys) : Prop :=
  (∀ m ∈ y.mq.agent_to_cs, m.text = t) ∧
  (∀ u, y.w1 = WStatus.done u → u = t ∨ u = "") ∧
  (∀ u, y.w2 = WStatus.done u → u = t ∨ u = "") ∧
  doneCount t y + y.mq.agent_to_cs.length ≤ n

/-- `wake` never finishes a task. -/
theorem wake_done (w : WStatus) (u : String) :
    wake w = WStatus.done u ↔ w = WStatus.done u := by
  cases w <;> simp [wake]

/-- The invariant is monotone in the send budget. -/
theorem raceInv_mono (t : String) {a b : Nat} (y : Sys) (hab : a ≤ b)
    (h : RaceInv t a y) : RaceInv t b y :=
  ⟨h.1, h.2.1, h.2.2.1, le_trans h.2.2.2 hab⟩

/-- Waiter 1 running the atomic pop-or-`""` tail preserves the
invariant. -/
theorem complete_w1_raceInv (t : String) (n : Nat) (y : Sys) (ht : t ≠ "")
    (hw : y.w1 ≠ WStatus.done t) (h : RaceInv t n y) :
    RaceInv t n
      { y with mq := (completePop y.mq).2, w1 := .done (completePop y.mq).1 } := by
  obtain ⟨hq, _, h2, hcnt⟩ := h
  have hw0 : (if y.w1 = WStatus.done t then 1 else 0) = 0 := by simp [hw]
  simp only [doneCount] at hcnt
  rcases hk : y.mq.agent_to_cs with _ | ⟨m, rest⟩
  · have hz : ¬((WStatus.done "" : WStatus) = WStatus.done t) := by
      simp [Ne.symm ht]
    refine ⟨?_, ?_, ?_, ?_⟩
    · intro x hx
      simp only [completePop, hk] at hx
      exact hq x (hk ▸ hx)
    · intro u hu
      simp [completePop, hk] at hu
      exact Or.inr hu.symm
    · intro u hu
      exact h2 u hu
    · simp only [doneCount, completePop, hk, List.length_nil] at hcnt ⊢
      rw [if_neg hz]
      omega
  · have hm : m.text = t := hq m (hk ▸ List.mem_cons_self m rest)
    have ho : (if (WStatus.done m.text : WStatus) = WStatus.done t
        then (1 : Nat) else 0) = 1 := by
      rw [hm]
      simp
    refine ⟨?_, ?_, ?_, ?_⟩
    · intro x hx
      refine hq x ?_
      have hx' : x ∈ rest := by simpa [completePop, hk] using hx
      exact hk ▸ List.mem_cons_of_mem m hx'
    · intro u hu
      simp [completePop, hk] at hu
      exact Or.inl (hu.symm.trans hm)
    · intro u hu
      exact h2 u hu
    · simp only [doneCount, completePop, hk, List.length_cons] at hcnt ⊢
      rw [ho]
      omega

/-- Waiter 2 running the atomic pop-or-`""` tail preserves the
invariant. -/
theorem complete_w2_raceInv (t : String) (n : Nat) (y : Sys) (ht : t ≠ "")
    (hw : y.w2 ≠ WStatus.done t) (h : RaceInv t n y) :
    RaceInv t n
      { y with mq := (completePop y.mq).2, w2 := .done (completePop y.mq).1 } := by
  obtain ⟨hq, h1, _, hcnt⟩ := h
  have hw0 : (if y.w2 = WStatus.done t then 1 else 0) = 0 := by simp [hw]
  simp only [doneCount] at hcnt
  rcases hk : y.mq.agent_to_cs with _ | ⟨m, rest⟩
  · have hz : ¬((WStatus.done "" : WStatus) = WStatus.done t) := by
      simp [Ne.symm ht]
    refine ⟨?_, ?_, ?_, ?_⟩
    · intro x hx
      simp only [completePop, hk] at hx
      exact hq x (hk ▸ hx)
    · intro u hu
      exact h1 u hu
    · intro u hu
      simp [completePop, hk] at hu
      exact Or.inr hu.symm
    · simp only [doneCount, completePop, hk, List.length_nil] at hcnt ⊢
      rw [if_neg hz]
      omega
  · have hm : m.text = t := hq m (hk ▸ List.mem_cons_self m rest)
    have ho : (if (WStatus.done m.text : WStatus) = WStatus.done t
        then (1 : Nat) else 0) = 1 := by
      rw [hm]
      simp
    refine ⟨?_, ?_, ?_, ?_⟩
    · intro x hx
      refine hq x ?_
      have hx' : x ∈ rest := by simpa [completePop, hk] using hx
      exact hk ▸ List.mem_cons_of_mem m hx'
    · intro u hu
      exact h1 u hu
    · intro u hu
      simp [completePop, hk] at hu
      exact Or.inl (hu.symm.trans hm)
    · simp only [doneCount, completePop, hk, List.length_cons] at hcnt ⊢
      rw [ho]
      omega

/-- `schedSends` over a schedule starting with a send. -/
theorem schedSends_cons_send (u : String) (rest : List SEv) :
    schedSends (SEv.send u :: rest) = u :: schedSends rest := by
  simp [schedSends]

/-- `schedSends` ignores a leading non-send event. -/
theorem schedSends_cons_nonsend (e : SEv) (rest : List SEv)
    (he : ∀ u, e ≠ SEv.send u) :
    schedSends (e :: rest) = schedSends rest := by
  cases e with
  | send u => exact absurd rfl (he u)
  | start1 => simp [schedSends]
  | start2 => simp [schedSends]
  | resume1 => simp [schedSends]
  | resume2 => simp [schedSends]

/-- A non-`send` scheduler event preserves the race invariant with the
same send budget. -/
theorem stepSys_raceInv_nonsend (t : String) (n : Nat) (e : SEv) (y : Sys)
    (ht : t ≠ "") (he : ∀ u, e ≠ SEv.send u) (h : RaceInv t n y) :
    RaceInv t n (stepSys e y) := by
  obtain ⟨hq, h1, h2, hcnt⟩ := h
  cases e with
  | send u => exact absurd rfl (he u)
  | start1 =>
      cases hw : y.w1 with
      | idle =>
          by_cases hr : y.mq.agent_message_ready = true
          · have hne : y.w1 ≠ WStatus.done t := by simp [hw]
            have hstep : stepSys SEv.start1 y =
                { y with mq := (completePop y.mq).2,
                         w1 := .done (completePop y.mq).1 } := by
              simp [stepSys, hw, hr]
            rw [hstep]
            exact complete_w1_raceInv t n y ht hne ⟨hq, h1, h2, hcnt⟩
          · have hstep : stepSys SEv.start1 y = { y with w1 := .parked } := by
              simp [stepSys, hw, hr]
            rw [hstep]
            have hp : (if (WStatus.parked : WStatus) = WStatus.done t
                then (1 : Nat) else 0) = 0 := by simp
            have hw1 : (if y.w1 = WStatus.done t then 1 else 0) = 0 := by
              simp [hw]
            refine ⟨hq, ?_, h2, ?_⟩
            · intro u hu
              exact absurd hu (by simp)
            · simp only [doneCount] at hcnt ⊢
              rw [hp] at *
              omega
      | parked =>
          have hstep : stepSys SEv.start1 y = y := by simp [stepSys, hw]
          rw [hstep]
          exact ⟨hq, h1, h2, hcnt⟩
      | woken =>
          have hstep : stepSys SEv.start1 y = y := by simp [stepSys, hw]
          rw [hstep]
          exact ⟨hq, h1, h2, hcnt⟩
      | done r =>
          have hstep : stepSys SEv.start1 y = y := by simp [stepSys, hw]
          rw [hstep]
          exact ⟨hq, h1, h2, hcnt⟩
  | start2 =>
      cases hw : y.w2 with
      | idle =>
          by_cases hr : y.mq.agent_message_ready = true
          · have hne : y.w2 ≠ WStatus.done t := by simp [hw]
            have hstep : stepSys SEv.start2 y =
                { y with mq := (completePop y.mq).2,
                         w2 := .done (completePop y.mq).1 } := by
              simp [stepSys, hw, hr]
            rw [hstep]
            exact complete_w2_raceInv t n y ht hne ⟨hq, h1, h2, hcnt⟩
          · have hstep : stepSys SEv.start2 y = { y with w2 := .parked } := by
              simp [stepSys, hw, hr]
            rw [hstep]
            have hp : (if (WStatus.parked : WStatus) = WStatus.done t
                then (1 : Nat) else 0) = 0 := by simp
            refine ⟨hq, h1, ?_, ?_⟩
            · intro u hu
              exact absurd hu (by simp)
            · simp only [doneCount] at hcnt ⊢
              rw [hp] at *
              omega
      | parked =>
          have hstep : stepSys SEv.start2 y = y := by simp [stepSys, hw]
          rw [hstep]
          exact ⟨hq, h1, h2, hcnt⟩
      | woken =>
          have hstep : stepSys SEv.start2 y = y := by simp [stepSys, hw]
          rw [hstep]
          exact ⟨hq, h1, h2, hcnt⟩
      | done r =>
          have hstep : stepSys SEv.start2 y = y := by simp [stepSys, hw]
          rw [hstep]
          exact ⟨hq, h1, h2, hcnt⟩
  | resume1 =>
      cases hw : y.w1 with
      | woken =>
          have hne : y.w1 ≠ WStatus.done t := by simp [hw]
          have hstep : stepSys SEv.resume1 y =
              { y with mq := (completePop y.mq).2,
                       w1 := .done (completePop y.mq).1 } := by
            simp [stepSys, hw]
          rw [hstep]
          exact complete_w1_raceInv t n y ht hne ⟨hq, h1, h2, hcnt⟩
      | idle =>
          have hstep : stepSys SEv.resume1 y = y := by simp [stepSys, hw]
          rw [hstep]
          exact ⟨hq, h1, h2, hcnt⟩
      | parked =>
          have hstep : stepSys SEv.resume1 y = y := by simp [stepSys, hw]
          rw [hstep]
          exact ⟨hq, h1, h2, hcnt⟩
      | done r =>
          have hstep : stepSys SEv.resume1 y = y := by simp [stepSys, hw]
          rw [hstep]
          exact ⟨hq, h1, h2, hcnt⟩
  | resume2 =>
      cases hw : y.w2 with
      | woken =>
          have hne : y.w2 ≠ WStatus.done t := by simp [hw]
          have hstep : stepSys SEv.resume2 y =
              { y with mq := (completePop y.mq).2,
                       w2 := .done (completePop y.mq).1 } := by
            simp [stepSys, hw]
          rw [hstep]
          exact complete_w2_raceInv t n y ht hne ⟨hq, h1, h2, hcnt⟩
      | idle =>
          have hstep : stepSys SEv.resume2 y = y := by simp [stepSys, hw]
          rw [hstep]
          exact ⟨hq, h1, h2, hcnt⟩
      | parked =>
          have hstep : stepSys SEv.resume2 y = y := by simp [stepSys, hw]
          rw [hstep]
          exact ⟨hq, h1, h2, hcnt⟩
      | done r =>
          have hstep : stepSys SEv.resume2 y = y := by simp [stepSys, hw]
          rw [hstep]
          exact ⟨hq, h1, h2, hcnt⟩

/-- A `send t` scheduler event preserves the race invariant with one more
send in the budget. -/
theorem stepSys_raceInv_send (t : String) (n : Nat) (y : Sys)
    (h : RaceInv t n y) : RaceInv t (n + 1) (stepSys (SEv.send t) y) := by
  obtain ⟨hq, h1, h2, hcnt⟩ := h
  refine ⟨?_, ?_, ?_, ?_⟩
  · intro m hm
    have hm' : m ∈ y.mq.agent_to_cs ∨
        m = { text := t, timestamp := y.mq.clock,
              sender := "negotiation_agent" } := by
      simpa [stepSys, send_from_agent] using hm
    rcases hm' with hm' | hm'
    · exact hq m hm'
    · rw [hm']
  · intro u hu
    exact h1 u ((wake_done _ _).mp (by simpa [stepSys] using hu))
  · intro u hu
    exact h2 u ((wake_done _ _).mp (by simpa [stepSys] using hu))
  · have hd1 : (if wake y.w1 = WStatus.done t then 1 else 0) =
        (if y.w1 = WStatus.done t then 1 else 0) := by
      cases y.w1 <;> simp [wake]
    have hd2 : (if wake y.w2 = WStatus.done t then 1 else 0) =
        (if y.w2 = WStatus.done t then 1 else 0) := by
      cases y.w2 <;> simp [wake]
    simp only [doneCount] at hcnt
    simp only [doneCount, stepSys, send_from_agent, hd1, hd2,
      List.length_append, List.length_cons, List.length_nil]
    omega

/-- Running a whole schedule whose sends all carry `t` preserves the
invariant, the budget growing by the number of sends. -/
theorem runSys_raceInv (sched : List SEv) (y : Sys) (t : String) (n : Nat)
    (ht : t ≠ "") (hs : ∀ u ∈ schedSends sched, u = t)
    (h : RaceInv t n y) :
    RaceInv t (n + (schedSends sched).length) (runSys sched y) := by
  induction sched generalizing y n with
  | nil => simpa [runSys, schedSends] using h
  | cons e rest ih =>
      by_cases hsend : ∀ u, e ≠ SEv.send u
      · have hrest : ∀ v ∈ schedSends rest, v = t := fun v hv =>
          hs v (by rw [schedSends_cons_nonsend e rest hsend]; exact hv)
        have hstep := stepSys_raceInv_nonsend t n e y ht hsend ⟨h.1, h.2.1, h.2.2.1, h.2.2.2⟩
        have hfin := ih (stepSys e y) n hrest hstep
        rw [schedSends_cons_nonsend e rest hsend]
        exact hfin
      · push_neg at hsend
        obtain ⟨u, hu⟩ := hsend
        subst hu
        have hut : u = t := hs u (by
          rw [schedSends_cons_send]
          exact List.mem_cons_self u _)
        subst hut
        have hrest : ∀ v ∈ schedSends rest, v = u := fun v hv =>
          hs v (by
            rw [schedSends_cons_send]
            exact List.mem_cons_of_mem u hv)
        have hstep := stepSys_raceInv_send u n y h
        have hfin := ih (stepSys (SEv.send u) y) (n + 1) hrest hstep
        have hlen : (schedSends (SEv.send u :: rest)).length =
            (schedSends rest).length + 1 := by
          rw [schedSends_cons_send]
          rfl
        exact raceInv_mono u (runSys rest (stepSys (SEv.send u) y))
          (by omega) hfin

/-!
## Claims
-/

/-- C1, counterexample: after three `send_from_agent` calls A, B, C, the
first wait returns "A", but the second wait finds the event cleared (by
the first pop) and suspends forever, so the waiters do not receive B and
C — refuting delivery "regardless of when the waits are issued relative
to the sends". -/
theorem c1_cex :
    (wait_for_agent_message none
      (send_from_agent "C" (send_from_agent "B"
        (send_from_agent "A" MQState.init)))).1 = WaitResult.msg "A" ∧
    (wait_for_agent_message none
      ((wait_for_agent_message none
        (send_from_agent "C" (send_from_agent "B"
          (send_from_agent "A" MQState.init)))).2)).1 =
      WaitResult.blocked := by
  decide

/-- C1 (amended): within one direction, delivery respects send order —
after any trace, the texts returned by completed waits, in completion
order, followed by the texts still pending in the queue, equal the texts
sent, in send order; so whatever is delivered is delivered in FIFO order,
but (unlike the original claim) not every send need be delivered when
waits are issued after multiple pending sends. -/
theorem c1_fifo_delivery (ops : List Op) :
    (runTrace ops TState.init).deliveredAgent ++
        ((runTrace ops TState.init).mq.agent_to_cs.map Message.text) =
      agentSends ops ∧
    (runTrace ops TState.init).deliveredCS ++
        ((runTrace ops TState.init).mq.cs_to_agent.map Message.text) =
      csSends ops := by
  have hinit : EventConsistent TState.init.mq := by
    refine ⟨?_, ?_⟩ <;> intro hx <;>
      simp [TState.init, MQState.init] at hx
  have h := runTrace_fifo ops TState.init hinit
  refine ⟨?_, ?_⟩
  · have h2 := h.2.1
    simpa [TState.init, MQState.init] using h2
  · have h3 := h.2.2
    simpa [TState.init, MQState.init] using h3

/-- C2: if a trace's sends are exactly `send_from_agent "a"`,
`send_from_cs "b"`, `send_from_agent "c"` in that order, interleaved with
any wait calls (and no `clear_history`), the conversation history holds
exactly those three messages with senders
negotiation_agent/cs_simulator/negotiation_agent — independent of whether
or when waits consumed them. -/
theorem c2_history_order (ops : List Op)
    (h1 : sendRecords ops =
      [("negotiation_agent", "a"), ("cs_simulator", "b"),
       ("negotiation_agent", "c")])
    (h2 : Op.clearHistory ∉ ops) :
    (get_conversation_history (runTrace ops TState.init).mq).map
        Message.record =
      [("negotiation_agent", "a"), ("cs_simulator", "b"),
       ("negotiation_agent", "c")] := by
  have h := runTrace_history_records ops TState.init h2
  simpa [get_conversation_history, TState.init, MQState.init, h1] using h

/-- C2 witness: a concrete interleaving (waits between the sends). -/
theorem c2_witness :
    (get_conversation_history (runTrace
      [Op.sendAgent "a", Op.waitAgent none, Op.sendCS "b",
       Op.waitCS (some 1), Op.sendAgent "c"] TState.init).mq).map
        Message.record =
      [("negotiation_agent", "a"), ("cs_simulator", "b"),
       ("negotiation_agent", "c")] :=
  c2_history_order _ (by decide) (by decide)

/-- C3, counterexample: from the reachable state with one message "y"
still pending on `cs_to_agent` but the event cleared (send "x", send "y",
then one wait popped "x" and cleared the event), a timed wait times out;
a following `send_from_cs "z"` and an untimed wait then return the older
pending "y", not the sent "z" — refuting "returns the sent message" in
full generality. -/
theorem c3_cex :
    (wait_for_cs_response (some 1)
      ((wait_for_cs_response (some 1)
        (send_from_cs "y" (send_from_cs "x" MQState.init))).2)).1 =
      WaitResult.timeout ∧
    (wait_for_cs_response none
      (send_from_cs "z"
        ((wait_for_cs_response (some 1)
          (send_from_cs "y" (send_from_cs "x" MQState.init))).2))).1 =
      WaitResult.msg "y" ∧
    WaitResult.msg "y" ≠ WaitResult.msg "z" := by
  decide

/-- C3 (amended): a timed-out wait (either direction) is surfaced as the
timeout outcome and leaves the whole mailbox state exactly as before, so
no message is consumed; and when — as in the spec's scenario — the
direction's pending queue was empty before the timed-out wait, a
following send plus an untimed wait returns exactly the sent message. -/
theorem c3_timeout_nondestructive (t : Option ℚ) (s : MQState) :
    ((wait_for_cs_response t s).1 = WaitResult.timeout →
      (wait_for_cs_response t s).2 = s) ∧
    ((wait_for_agent_message t s).1 = WaitResult.timeout →
      (wait_for_agent_message t s).2 = s) ∧
    (s.cs_to_agent = [] →
      (wait_for_cs_response t s).1 = WaitResult.timeout →
      ∀ m, (wait_for_cs_response none
        (send_from_cs m ((wait_for_cs_response t s).2))).1 =
          WaitResult.msg m) ∧
    (s.agent_to_cs = [] →
      (wait_for_agent_message t s).1 = WaitResult.timeout →
      ∀ m, (wait_for_agent_message none
        (send_from_agent m ((wait_for_agent_message t s).2))).1 =
          WaitResult.msg m) := by
  refine ⟨wait_for_cs_response_timeout_frame t s,
    wait_for_agent_message_timeout_frame t s, ?_, ?_⟩
  · intro hemp htm m
    rw [wait_for_cs_response_timeout_frame t s htm]
    simp [wait_for_cs_response, send_from_cs, hemp, immediateTimeout, truthy]
  · intro hemp htm m
    rw [wait_for_agent_message_timeout_frame t s htm]
    simp [wait_for_agent_message, send_from_agent, hemp, immediateTimeout,
      truthy]

/-- C3 witness: on the fresh state, a 1-second wait times out leaving the
state intact, and a send "hello" followed by an untimed wait returns
"hello". -/
theorem c3_witness :
    (wait_for_cs_response (some 1) MQState.init).2 = MQState.init ∧
    (wait_for_cs_response none
      (send_from_cs "hello"
        ((wait_for_cs_response (some 1) MQState.init).2))).1 =
      WaitResult.msg "hello" :=
  ⟨(c3_timeout_nondestructive (some 1) MQState.init).1 (by decide),
   (c3_timeout_nondestructive (some 1) MQState.init).2.2.1 rfl (by decide)
     "hello"⟩

/-- C4, counterexample: in the state whose agent-direction event is set
while its queue is empty, an untimed `wait_for_agent_message` does not
re-enter the wait: it completes immediately, returning the empty string
(the `else: return ""` branch) — refuting "keeps blocking until a message
arrives". -/
theorem c4_cex :
    (wait_for_agent_message none
      { MQState.init with agent_message_ready := true }).1 =
      WaitResult.msg "" ∧
    (wait_for_agent_message none
      { MQState.init with agent_message_ready := true }).1 ≠
      WaitResult.blocked := by
  decide

/-- C4 (amended): in every state where a direction's wake signal is set
but its pending queue is empty, a wait on that direction (with any
timeout that is not negative) completes immediately with the empty
string and leaves the state unchanged, rather than re-entering the
wait. -/
theorem c4_spurious_wake_returns_empty (t : Option ℚ) (s : MQState)
    (himm : immediateTimeout t = false) :
    (s.agent_message_ready = true → s.agent_to_cs = [] →
      wait_for_agent_message t s = (WaitResult.msg "", s)) ∧
    (s.cs_response_ready = true → s.cs_to_agent = [] →
      wait_for_cs_response t s = (WaitResult.msg "", s)) := by
  constructor
  · intro hr hq
    simp [wait_for_agent_message, himm, hr, hq]
  · intro hr hq
    simp [wait_for_cs_response, himm, hr, hq]

/-- C4 witness: the concrete set-event/empty-queue state, untimed
wait. -/
theorem c4_witness :
    wait_for_agent_message none
        { MQState.init with agent_message_ready := true } =
      (WaitResult.msg "",
        { MQState.init with agent_message_ready := true }) :=
  (c4_spurious_wake_returns_empty none
    { MQState.init with agent_message_ready := true } rfl).1 rfl rfl

/-- C5, counterexample: `clear_history` is a mailbox operation that
removes every history entry, so after `send_from_agent "a"` followed by
`clear_history` the history length (0) differs from the total number of
sends ever made (1). -/
theorem c5_cex :
    (runTrace [Op.sendAgent "a", Op.clearHistory]
      TState.init).mq.conversation_history.length ≠
      sendCount [Op.sendAgent "a", Op.clearHistory] := by
  decide

/-- C5 (amended): after any sequence of mailbox operations containing no
`clear_history`, the history length equals the total number of
`send_from_agent` plus `send_from_cs` calls ever made; and no operation
other than `clear_history` ever removes a history entry (each leaves the
existing history as a prefix, appending at most its own record). -/
theorem c5_history_length (ops : List Op) (h : Op.clearHistory ∉ ops) :
    (runTrace ops TState.init).mq.conversation_history.length =
      sendCount ops ∧
    ∀ (op : Op) (ts : TState), op ≠ Op.clearHistory →
      ∃ tail, (applyOp op ts).mq.conversation_history =
        ts.mq.conversation_history ++ tail := by
  constructor
  · have hrec := runTrace_history_records ops TState.init h
    have hlen := congrArg List.length hrec
    simpa [sendCount, TState.init, MQState.init] using hlen
  · intro op ts hop
    cases op with
    | sendAgent t =>
        exact ⟨[⟨t, ts.mq.clock, "negotiation_agent"⟩],
          by simp [applyOp, send_from_agent]⟩
    | sendCS t =>
        exact ⟨[⟨t, ts.mq.clock, "cs_simulator"⟩],
          by simp [applyOp, send_from_cs]⟩
    | waitAgent t =>
        exact ⟨[], by
          simpa [applyOp] using (wait_for_agent_message_frame t ts.mq).1⟩
    | waitCS t =>
        exact ⟨[], by
          simpa [applyOp] using (wait_for_cs_response_frame t ts.mq).1⟩
    | clearHistory => exact absurd rfl hop
    | endConversation => exact ⟨[], by simp [applyOp, end_conversation]⟩

/-- C5 witness: a concrete clear-free trace with two sends and a
consuming wait, plus one concrete preservation instance. -/
theorem c5_witness :
    (runTrace [Op.sendAgent "a", Op.sendCS "b", Op.waitAgent none]
      TState.init).mq.conversation_history.length =
      sendCount [Op.sendAgent "a", Op.sendCS "b", Op.waitAgent none] ∧
    ∃ tail,
      (applyOp (Op.sendAgent "z") TState.init).mq.conversation_history =
        TState.init.mq.conversation_history ++ tail :=
  ⟨(c5_history_length [Op.sendAgent "a", Op.sendCS "b", Op.waitAgent none]
      (by decide)).1,
   (c5_history_length [] (by decide)).2 (Op.sendAgent "z") TState.init
     (by decide)⟩

/-- C6, counterexample: from the fresh state (flag false), a first send
via `send_from_cs` leaves the active flag false — `send_from_cs` never
sets it, refuting "becomes true on the first send in either
direction". -/
theorem c6_cex :
    MQState.init.active = false ∧
    is_active (send_from_cs "b" MQState.init) = false := by
  decide

/-- C6 (amended): the active flag becomes true on every
`send_from_agent`; `send_from_cs` leaves it unchanged (so a conversation
opened only by CS sends is never marked active); and the only operation
that turns the flag from true to false is `end_conversation`. -/
theorem c6_active_flag :
    (∀ (s : MQState) (m : String), (send_from_agent m s).active = true) ∧
    (∀ (s : MQState) (m : String), (send_from_cs m s).active = s.active) ∧
    (∀ (op : Op) (ts : TState), ts.mq.active = true →
      (applyOp op ts).mq.active = false → op = Op.endConversation) := by
  refine ⟨fun s m => rfl, fun s m => rfl, ?_⟩
  intro op ts hact hfalse
  cases op with
  | sendAgent t => simp [applyOp, send_from_agent] at hfalse
  | sendCS t => simp_all [applyOp, send_from_cs]
  | waitAgent t =>
      have hfr := (wait_for_agent_message_frame t ts.mq).2.2.2.1
      simp only [applyOp] at hfalse
      rw [hfr] at hfalse
      simp_all
  | waitCS t =>
      have hfr := (wait_for_cs_response_frame t ts.mq).2.2.2.1
      simp only [applyOp] at hfalse
      rw [hfr] at hfalse
      simp_all
  | clearHistory => simp_all [applyOp, clear_history]
  | endConversation => rfl

/-- C6 witness: concrete instances of all three parts. -/
theorem c6_witness :
    (send_from_agent "x" MQState.init).active = true ∧
    (send_from_cs "y" MQState.init).active = MQState.init.active ∧
    Op.endConversation = Op.endConversation :=
  ⟨c6_active_flag.1 MQState.init "x",
   c6_active_flag.2.1 MQState.init "y",
   c6_active_flag.2.2 Op.endConversation
     { mq := send_from_agent "x" MQState.init, deliveredAgent := [],
       deliveredCS := [] } (by decide) (by decide)⟩

/-- C7, counterexample: both waiters park before the send; the single
`send_from_agent "ping"` wakes both; the first resumed waiter pops
"ping", the second resumed waiter finds the queue empty and — instead of
remaining blocked or timing out — completes immediately, returning the
empty string. -/
theorem c7_cex :
    (runSys [SEv.start1, SEv.start2, SEv.send "ping", SEv.resume1,
      SEv.resume2] Sys.init).w1 = WStatus.done "ping" ∧
    (runSys [SEv.start1, SEv.start2, SEv.send "ping", SEv.resume1,
      SEv.resume2] Sys.init).w2 = WStatus.done "" ∧
    WStatus.done "" ≠ WStatus.parked := by
  decide

/-- C7 (amended): under any interleaving of two concurrent
`wait_for_agent_message` callers with exactly one enqueued message, at
most one waiter ever receives the message (no duplication); the other
never observes it — but instead of necessarily remaining blocked or
timing out, it may also complete with the empty string, and those are
the only possible completion results. -/
theorem c7_race_no_duplication (sched : List SEv) (t : String)
    (ht : t ≠ "") (hs : schedSends sched = [t]) :
    ¬((runSys sched Sys.init).w1 = WStatus.done t ∧
      (runSys sched Sys.init).w2 = WStatus.done t) ∧
    (∀ u, (runSys sched Sys.init).w1 = WStatus.done u → u = t ∨ u = "") ∧
    (∀ u, (runSys sched Sys.init).w2 = WStatus.done u → u = t ∨ u = "") := by
  have hinit : RaceInv t 0 Sys.init := by
    refine ⟨?_, ?_, ?_, ?_⟩ <;>
      simp [Sys.init, MQState.init, doneCount]
  have hall : ∀ u ∈ schedSends sched, u = t := by
    rw [hs]
    intro u hu
    simpa using hu
  have hfin := runSys_raceInv sched Sys.init t 0 ht hall hinit
  rw [hs] at hfin
  obtain ⟨hq, h1, h2, hcnt⟩ := hfin
  refine ⟨?_, h1, h2⟩
  rintro ⟨hw1, hw2⟩
  simp [doneCount, hw1, hw2] at hcnt
  omega

/-- C7 witness: a concrete two-waiter schedule around one send. -/
theorem c7_witness :
    ¬((runSys [SEv.start2, SEv.start1, SEv.send "ping", SEv.resume2,
        SEv.resume1] Sys.init).w1 = WStatus.done "ping" ∧
      (runSys [SEv.start2, SEv.start1, SEv.send "ping", SEv.resume2,
        SEv.resume1] Sys.init).w2 = WStatus.done "ping") :=
  (c7_race_no_duplication
    [SEv.start2, SEv.start1, SEv.send "ping", SEv.resume2, SEv.resume1]
    "ping" (by decide) (by decide)).1

/-- C8: a wait called with `timeout=0` behaves exactly like a wait with
no timeout — the falsy `if timeout:` skips `asyncio.wait_for`, so the
call blocks until a message arrives and can never end in the timeout
outcome. -/
theorem c8_zero_timeout (s : MQState) :
    wait_for_agent_message (some 0) s = wait_for_agent_message none s ∧
    wait_for_cs_response (some 0) s = wait_for_cs_response none s ∧
    (wait_for_agent_message (some 0) s).1 ≠ WaitResult.timeout ∧
    (wait_for_cs_response (some 0) s).1 ≠ WaitResult.timeout := by
  refine ⟨rfl, rfl, ?_, ?_⟩
  · by_cases hr : s.agent_message_ready = true
    · rcases hq : s.agent_to_cs with _ | ⟨m, rest⟩ <;>
        simp [wait_for_agent_message, immediateTimeout, truthy, hr, hq]
    · simp [wait_for_agent_message, immediateTimeout, truthy, hr]
  · by_cases hr : s.cs_response_ready = true
    · rcases hq : s.cs_to_agent with _ | ⟨m, rest⟩ <;>
        simp [wait_for_cs_response, immediateTimeout, truthy, hr, hq]
    · simp [wait_for_cs_response, immediateTimeout, truthy, hr]

/-- C8 witness: on the fresh state, `timeout=0` blocks exactly like no
timeout instead of timing out immediately. -/
theorem c8_witness :
    wait_for_agent_message (some 0) MQState.init =
      wait_for_agent_message none MQState.init ∧
    (wait_for_agent_message (some 0) MQState.init).1 ≠
      WaitResult.timeout :=
  ⟨(c8_zero_timeout MQState.init).1, (c8_zero_timeout MQState.init).2.2.1⟩

/-- C9: a successful pop clears the direction's ready event
unconditionally, even when more messages remain pending (`rest ≠ []`);
from that very state — non-empty pending queue, cleared event — a
subsequent untimed wait suspends instead of returning the pending
message. Both directions behave alike. -/
theorem c9_pop_clears_event (s : MQState) (m : Message)
    (rest : List Message) (t : Option ℚ)
    (himm : immediateTimeout t = false) :
    (s.agent_message_ready = true → s.agent_to_cs = m :: rest →
      wait_for_agent_message t s =
        (WaitResult.msg m.text,
         { s with agent_to_cs := rest, agent_message_ready := false }) ∧
      (rest ≠ [] →
        (wait_for_agent_message none
          { s with agent_to_cs := rest,
                   agent_message_ready := false }).1 =
          WaitResult.blocked)) ∧
    (s.cs_response_ready = true → s.cs_to_agent = m :: rest →
      wait_for_cs_response t s =
        (WaitResult.msg m.text,
         { s with cs_to_agent := rest, cs_response_ready := false }) ∧
      (rest ≠ [] →
        (wait_for_cs_response none
          { s with cs_to_agent := rest,
                   cs_response_ready := false }).1 =
          WaitResult.blocked)) := by
  constructor
  · intro hr hq
    constructor
    · simp [wait_for_agent_message, himm, hr, hq]
    · intro hrest
      simp [wait_for_agent_message, immediateTimeout, truthy]
  · intro hr hq
    constructor
    · simp [wait_for_cs_response, himm, hr, hq]
    · intro hrest
      simp [wait_for_cs_response, immediateTimeout, truthy]

/-- C9 witness: two pending agent messages; the pop of "A" clears the
event even though "B" remains pending, and the next untimed wait
suspends. -/
theorem c9_witness :
    wait_for_agent_message none
        (send_from_agent "B" (send_from_agent "A" MQState.init)) =
      (WaitResult.msg "A",
       { send_from_agent "B" (send_from_agent "A" MQState.init) with
         agent_to_cs := [⟨"B", 1, "negotiation_agent"⟩],
         agent_message_ready := false }) ∧
    (wait_for_agent_message none
      { send_from_agent "B" (send_from_agent "A" MQState.init) with
        agent_to_cs := [⟨"B", 1, "negotiation_agent"⟩],
        agent_message_ready := false }).1 = WaitResult.blocked :=
  ⟨((c9_pop_clears_event
      (send_from_agent "B" (send_from_agent "A" MQState.init))
      ⟨"A", 0, "negotiation_agent"⟩ [⟨"B", 1, "negotiation_agent"⟩]
      none rfl).1 rfl (by decide)).1,
   ((c9_pop_clears_event
      (send_from_agent "B" (send_from_agent "A" MQState.init))
      ⟨"A", 0, "negotiation_agent"⟩ [⟨"B", 1, "negotiation_agent"⟩]
      none rfl).1 rfl (by decide)).2 (by decide)⟩

/-- C10: `clear_history` empties the conversation history and changes
nothing else — both pending queues, both ready events, the active flag
and the clock are untouched. -/
theorem c10_clear_history_frame (s : MQState) :
    get_conversation_history (clear_history s) = [] ∧
    (clear_history s).agent_to_cs = s.agent_to_cs ∧
    (clear_history s).cs_to_agent = s.cs_to_agent ∧
    (clear_history s).agent_message_ready = s.agent_message_ready ∧
    (clear_history s).cs_response_ready = s.cs_response_ready ∧
    (clear_history s).active = s.active ∧
    (clear_history s).clock = s.clock :=
  ⟨rfl, rfl, rfl, rfl, rfl, rfl, rfl⟩
